import Mathlib

set_option maxRecDepth 8000

/-!
Shallow embedding of the DocQuest backend core (processor.py, qa_engine.py,
logic_quiz.py) and proofs about it.

Modelling conventions:
* Python strings are `List Char` (named `Str` here); string literals are
  written as `"...".data`.
* Python `str.strip()` is `trim`, `str.split()` (no argument) is `pyWords`,
  `str.split(sep)` is `List.splitOnP`, slicing `s[i:j]` is `drop`/`take`.
* Python `dict` (insertion ordered, assignment updates in place) is an
  association list with `dictSet`.
* The external generative model is an oracle (`LLM`): `init` tells whether
  `get_llm()` succeeds, `invoke i` gives the outcome of the i-th `llm.invoke`
  call in a retry loop (`none` models a raised exception, `some s` a returned
  string).  Python exceptions are modelled by `Except` or by explicit
  control-flow on oracle outcomes; every embedded function is total, and a
  function returning a plain value (not `Except`) models code that catches
  every exception.
* Functions additionally return a `Nat` counting generative-model invocations
  where a claim speaks about the model being (or not being) invoked.
* Case mapping (`upper`/`lower`, `re.IGNORECASE`) is modelled with Lean's
  ASCII `Char.toUpper`/`Char.toLower`; the repository only compares ASCII
  tokens and header names.
-/

/-- Python strings, modelled as lists of characters. -/
abbrev Str := List Char

/-- The whitespace class of Python `str.strip`/`str.split`/regex `\s`
(space, tab, newline, carriage return, vertical tab, form feed). -/
def pySpace (c : Char) : Bool :=
  c = ' ' || c = '\t' || c = '\n' || c = '\r' || c = Char.ofNat 11 || c = Char.ofNat 12

/-- Python `str.strip()`: drop whitespace from both ends. -/
def trim (s : Str) : Str :=
  ((s.dropWhile pySpace).reverse.dropWhile pySpace).reverse

/-- Python `str.lower()` (ASCII model). -/
def lowerStr (s : Str) : Str := s.map Char.toLower

/-- Python `str.upper()` (ASCII model). -/
def upperStr (s : Str) : Str := s.map Char.toUpper

/-- Python `str.split()` with no argument: split on whitespace runs,
discarding empty pieces. -/
def pyWords (s : Str) : List Str :=
  (s.splitOnP pySpace).filter (fun w => w ≠ [])

/-- Python `text.split("\n")`. -/
def pyLines (s : Str) : List Str :=
  s.splitOnP (fun c => c = '\n')

/-- Python `"\n".join(buffer)`. -/
def joinNL : List Str → Str
  | [] => []
  | [b] => b
  | b :: b2 :: rest => b ++ '\n' :: joinNL (b2 :: rest)

/-- Python decimal rendering of a natural number (for f-string holes). -/
def natStr (n : Nat) : Str := (Nat.repr n).data

/-- Python `dict` assignment `d[k] = v` on an insertion-ordered association
list: update in place if the key is present, else append. -/
def dictSet (d : List (Str × Str)) (k v : Str) : List (Str × Str) :=
  if d.any (fun p => p.1 = k) then
    d.map (fun p => if p.1 = k then (k, v) else p)
  else
    d ++ [(k, v)]

/-! ## processor.py — section segmentation -/

/-- `SECTION_HEADERS` from processor.py. -/
def SECTION_HEADERS : List Str :=
  [ "Abstract".data, "Introduction".data, "Background".data, "Methodology".data,
    "Methods".data, "Results".data, "Discussion".data, "Conclusion".data,
    "References".data, "Literature Review".data, "Related Work".data,
    "Experiments".data, "Analysis".data, "Findings".data, "Summary".data,
    "Overview".data, "Executive Summary".data, "Objectives".data,
    "Scope".data, "Definitions".data ]

/-- Whether the (already stripped) line matches one of the header regexes for
header `h` in `split_into_sections`, i.e. (case-insensitively) the header
itself, or the header after a numeric prefix followed by a dot and optional
whitespace, or after a `d.d`-style prefix and optional whitespace.  The
patterns with `.upper()`/`.lower()` and trailing whitespace are redundant
after stripping and under `re.IGNORECASE`. -/
def headerMatch (h lineClean : Str) : Bool :=
  let caseEq : Str → Str → Bool := fun a b => lowerStr a = lowerStr b
  let d1 := lineClean.takeWhile Char.isDigit
  let r1 := lineClean.dropWhile Char.isDigit
  let afterDot : Option Str :=
    match d1, r1 with
    | _ :: _, '.' :: rest => some rest
    | _, _ => none
  caseEq lineClean h ||
  (match afterDot with
   | some rest =>
       -- pattern `^\d+\.\s*{header}$`
       caseEq (rest.dropWhile pySpace) h ||
       -- pattern `^\d+\.\d+\s*{header}$`
       (match rest.takeWhile Char.isDigit, rest.dropWhile Char.isDigit with
        | _ :: _, rest2 => caseEq (rest2.dropWhile pySpace) h
        | [], _ => false)
   | none => false)

/-- The canonical header a non-blank stripped line is classified as, if any:
the first element of `SECTION_HEADERS` with a matching pattern (the loops in
`split_into_sections` break on the first match). -/
def matchedHeaderOf (line : Str) : Option Str :=
  let lineClean := trim line
  if lineClean = [] then none
  else SECTION_HEADERS.find? (fun h => headerMatch h lineClean)

/-- Loop state of `split_into_sections`: the `sections` dict, the
`current_section` name, and the `buffer` of accumulated raw lines. -/
structure SegState where
  sections : List (Str × Str)
  current : Str
  buffer : List Str
deriving DecidableEq, Repr

/-- One iteration of the `for line in lines` loop of `split_into_sections`. -/
def segStep (st : SegState) (line : Str) : SegState :=
  let lineClean := trim line
  if lineClean = [] then st
  else
    match SECTION_HEADERS.find? (fun h => headerMatch h lineClean) with
    | some h =>
        let sections :=
          if st.buffer = [] then st.sections
          else dictSet st.sections st.current (trim (joinNL st.buffer))
        { sections := sections, current := h, buffer := [] }
    | none => { st with buffer := st.buffer ++ [line] }

/-- `split_into_sections` from processor.py: scan lines, classify headers,
flush the buffer into the previous section on each header and at the end,
then drop sections whose text strips to empty. -/
def splitIntoSections (text : Str) : List (Str × Str) :=
  let st := (pyLines text).foldl segStep ⟨[], "Main Content".data, []⟩
  let secs :=
    if st.buffer = [] then st.sections
    else dictSet st.sections st.current (trim (joinNL st.buffer))
  secs.filter (fun p => trim p.2 ≠ [])

/-! ## processor.py — chunking and document processing -/

/-- The `range(0, len, 400)` start offsets of the fallback slicing in
`chunk_section`. -/
def fallbackStarts (n : Nat) : List Nat :=
  List.range' 0 ((n + 399) / 400) 400

/-- The fallback branch of `chunk_section`:
`[section_text[i:i + 500] for i in range(0, len(section_text), 400)]`. -/
def fallbackSlices (s : Str) : List Str :=
  (fallbackStarts s.length).map (fun i => (s.drop i).take 500)

/-- `chunk_section` from processor.py.  The external
`RecursiveCharacterTextSplitter.split_text` (a library call) is an oracle
`split`; `.error` models the call raising, `.ok cs` the returned chunk list.
On success, chunks whose stripped length is at most 30 are filtered out; on an
exception the naive fixed-stride slicing is used. -/
def chunkSection (split : Str → Except Unit (List Str)) (sectionText : Str) : List Str :=
  if trim sectionText = [] then []
  else
    match split sectionText with
    | Except.ok cs => cs.filter (fun c => 30 < (trim c).length)
    | Except.error _ => fallbackSlices sectionText

/-- A chunk dict `{section, paragraph, text}` built by `process_document`. -/
structure PChunk where
  sec : Str
  par : Nat
  text : Str
deriving DecidableEq, Repr

/-- The result dict of `process_document` (the `stats` sub-dict inlined). -/
structure ProcResult where
  sections : List Str
  chunks : List PChunk
  summary : Str
  total_chunks : Nat
  total_sections : Nat
  total_text_length : Nat
deriving DecidableEq, Repr

/-- `process_document` from processor.py, from the point where the extracted
text is in hand (text extraction reads external files and is out of scope
here).  `split` is the chunking oracle passed through to `chunk_section`;
`summary` stands for the outcome of `generate_summary` (a generative-model
call whose result does not feed back into sections/chunks/stats).
`chunk_section` is total, so the per-section `except/continue` in the source
never fires and every segmented section lands in the `sections` dict, even
with an empty chunk list. -/
def processDocument (split : Str → Except Unit (List Str)) (summary : Str)
    (text : Str) : Except Str ProcResult :=
  let sectionsRaw := splitIntoSections text
  if sectionsRaw = [] then Except.error ("No sections found in document".data)
  else
    let secChunks := sectionsRaw.map (fun p => (p.1, chunkSection split p.2))
    let chunks := secChunks.flatMap (fun sc =>
      sc.2.enum.map (fun ic => PChunk.mk sc.1 (ic.1 + 1) ic.2))
    if chunks = [] then Except.error ("No chunks generated from document".data)
    else
      Except.ok
        { sections := secChunks.map (fun sc => sc.1)
          chunks := chunks
          summary := summary
          total_chunks := chunks.length
          total_sections := secChunks.length
          total_text_length := text.length }

/-! ## qa_engine.py — vector store and grounded answer generation -/

/-- Python `"sep".join(parts)`. -/
def joinSep (sep : Str) : List Str → Str
  | [] => []
  | [b] => b
  | b :: b2 :: rest => b ++ sep ++ joinSep sep (b2 :: rest)

/-- The chunk dicts fed to `build_vector_store`: the builder reads the keys
`text`, `section` and `paragraph` with `c.get`, so each is optional. -/
structure InChunk where
  text : Option Str
  sec : Option Str
  par : Option Nat
deriving DecidableEq, Repr

/-- The metadata dict stored with each embedded chunk. -/
structure ChunkMeta where
  sec : Str
  par : Nat
  chunk_id : Nat
deriving DecidableEq, Repr

/-- A langchain `Document`: page content plus metadata. -/
structure Doc where
  page_content : Str
  md : ChunkMeta
deriving DecidableEq, Repr

/-- The chunks surviving the `if c.get("text") and c["text"].strip():` filter
in `build_vector_store` (a missing, empty or whitespace-only text is
discarded; an empty string is falsy in Python, which coincides with its strip
being empty). -/
def survivingChunks (chunks : List InChunk) : List InChunk :=
  chunks.filter (fun c =>
    match c.text with
    | some t => trim t ≠ []
    | none => false)

/-- `build_vector_store` from qa_engine.py, up to the external embedding call:
the `Document` list handed to `FAISS.from_documents`.  The loop appends the
text first and then stores `len(texts)` as `chunk_id`, so the i-th surviving
chunk (0-based) gets `chunk_id = i + 1`. -/
def buildVectorStore (chunks : List InChunk) : Except Str (List Doc) :=
  let texts := survivingChunks chunks
  if texts = [] then Except.error ("No valid text chunks provided".data)
  else
    Except.ok (texts.enum.map (fun ic =>
      { page_content := ic.2.text.getD []
        md := { sec := ic.2.sec.getD ("Unknown".data)
                par := ic.2.par.getD 0
                chunk_id := ic.1 + 1 } }))

/-- `load_vector_store` from qa_engine.py.  The disk state is `none` when no
index has been persisted at `VECTOR_DB_PATH`; a loaded store is represented
by the document list its similarity search returns for the query at hand
(the embedding service is external). -/
def loadVectorStore (disk : Option (List Doc)) : Except Str (List Doc) :=
  match disk with
  | none => Except.error ("Vector store not found. Please process a document first.".data)
  | some docs => Except.ok docs

/-- Distinct-word overlap `len(set(a.lower().split()) & set(b.lower().split()))`. -/
def sharedWordCount (a b : Str) : Nat :=
  ((pyWords (lowerStr a)).dedup.filter (fun w => w ∈ pyWords (lowerStr b))).length

/-- `is_response_grounded` from qa_engine.py: accept on a literal `SOURCE` or
`SECTION` in the uppercased response, else require more than 3 distinct words
shared between context and response.  (The `except` branch is unreachable:
no operation in the body raises.) -/
def isResponseGrounded (response context : Str) : Bool :=
  if ("SOURCE".data) <:+: upperStr response ∨ ("SECTION".data) <:+: upperStr response then
    true
  else
    3 < sharedWordCount context response

/-- One `[SOURCE i - Section: S, Paragraph: P]` context block of
`generate_answer_with_sources` (0-based `i` is printed as `i + 1`). -/
def sourceBlock (i : Nat) (d : Doc) : Str :=
  "[SOURCE ".data ++ natStr (i + 1) ++ " - Section: ".data ++ d.md.sec
    ++ ", Paragraph: ".data ++ natStr d.md.par ++ "]\n".data ++ d.page_content

/-- The context string of `generate_answer_with_sources`: blocks joined with
blank lines, truncated to 2000 characters with an ellipsis marker. -/
def answerContext (docs : List Doc) : Str :=
  let context := joinSep ("\n\n".data) (docs.enum.map (fun id => sourceBlock id.1 id.2))
  if 2000 < context.length then context.take 2000 ++ "...".data else context

/-- The result dict `{answer, sources, confidence}` (sources are
`document_to_dict` projections, isomorphic to the documents themselves). -/
structure AnswerResult where
  answer : Str
  sources : List Doc
  confidence : Str
deriving DecidableEq, Repr

/-- The oracle for the external generative model: `init` is whether
`get_llm()` returns (it raises on missing configuration, initialization
failure or a failing self-test), and `invoke i` is the outcome of the i-th
`llm.invoke` call of a retry loop — `none` for a raised exception, `some s`
for a returned string. -/
structure LLM where
  init : Bool
  invoke : Nat → Option Str

/-- The `for attempt in range(max_retries)` loop of
`generate_answer_with_sources`.  Result `some r` is a non-empty response
accepted by `is_response_grounded` (returned with confidence high); `none`
covers every path that ends in `generate_fallback_answer`: a rejected
response, exhausting the loop on empty responses, or an exception on the
last attempt (re-raised, then caught by the enclosing handler).  The second
component counts `llm.invoke` calls. -/
def answerAttempts (llm : LLM) (context : Str) : List Nat → Option Str × Nat
  | [] => (none, 0)
  | i :: rest =>
    match llm.invoke i with
    | none =>
        let r := answerAttempts llm context rest
        (r.1, r.2 + 1)
    | some resp =>
        if trim resp = [] then
          let r := answerAttempts llm context rest
          (r.1, r.2 + 1)
        else if isResponseGrounded resp context then (some resp, 1)
        else (none, 1)

/-- `generate_fallback_answer` from qa_engine.py. -/
def generateFallbackAnswer (docs : List Doc) : AnswerResult :=
  if docs = [] then
    { answer := "No relevant information found in the document to answer your question.".data
      sources := []
      confidence := "low".data }
  else
    let parts := (docs.take 3).map (fun d =>
      let content := d.page_content.take 200
      let content := if ("...".data) <:+ content then content.take (content.length - 3) else content
      "From ".data ++ d.md.sec ++ " (paragraph ".data ++ natStr d.md.par ++ "): ".data ++ content)
    let answer := "Based on the document content:\n\n".data ++ joinSep ("\n\n".data) parts
    let answer := if 500 < answer.length then answer.take 500 ++ "...".data else answer
    { answer := answer, sources := docs, confidence := "medium".data }

/-- `generate_answer_with_sources` from qa_engine.py.  `store` is the disk
state consumed by `load_vector_store` (with a loaded store represented by
the similarity-search result for `query`, see `loadVectorStore`).  Returns
the result dict together with the number of generative-model invocations
made on the answer path (the self-test inside `get_llm` is not counted).
The outermost `except` turns the load failure into an error-confidence
result wrapping the message. -/
def generateAnswerWithSources (store : Option (List Doc)) (llm : LLM)
    (_query : Str) : AnswerResult × Nat :=
  match loadVectorStore store with
  | Except.error e =>
      ({ answer := "Error generating answer: ".data ++ e
         sources := []
         confidence := "error".data }, 0)
  | Except.ok docs =>
      if docs = [] then
        ({ answer := "No relevant information found in the document to answer your question.".data
           sources := []
           confidence := "low".data }, 0)
      else
        let context := answerContext docs
        if llm.init then
          match answerAttempts llm context [0, 1, 2] with
          | (some resp, n) => ({ answer := trim resp, sources := docs, confidence := "high".data }, n)
          | (none, n) => (generateFallbackAnswer docs, n)
        else
          (generateFallbackAnswer docs, 0)

/-! ## logic_quiz.py — challenge questions and answer evaluation

Chunks reaching logic_quiz are the `{section, paragraph, text}` dicts built
by `process_document` (the `hasattr(chunk, 'page_content')` branches
normalize langchain `Document`s to the same dict shape via
`document_to_dict`, so the model works on that shape directly), except in
`evaluate_user_answer` where retrieval hands back `Document`s (`Doc`). -/

/-- `is_evaluation_grounded` from logic_quiz.py. -/
def isEvaluationGrounded (evaluation context user_answer : Str) : Bool :=
  if ("SOURCE".data) <:+: upperStr evaluation ∨ ("SECTION".data) <:+: upperStr evaluation then
    true
  else
    5 < sharedWordCount evaluation context ∧ 3 < sharedWordCount evaluation user_answer

/-- The canned reply of `generate_fallback_evaluation` for a missing or very
brief (stripped length below 5) user answer. -/
def briefAnswerMsg : Str :=
  "Your answer is very brief. Please provide more detail and explanation based on the document content.".data

/-- The `word_count > 150` remark (spelled with an explicit apostrophe). -/
def comprehensiveMsg : Str :=
  "Good detail in your response - you".data ++ [Char.ofNat 39]
    ++ "ve provided comprehensive coverage.".data

/-- `generate_fallback_evaluation` from logic_quiz.py: canned brief-answer
reply, else a word-count preamble, an overlap-based sentence when chunks were
retrieved, and a length-based remark. -/
def generateFallbackEvaluation (_question user_answer : Str) (chunks : List Doc) : Str :=
  if user_answer = [] ∨ (trim user_answer).length < 5 then briefAnswerMsg
  else
    let word_count := (pyWords user_answer).length
    let evaluation := "Thank you for your ".data ++ natStr word_count ++ "-word response. ".data
    let evaluation :=
      if chunks = [] then evaluation
      else
        let doc_content := ((chunks.take 3).map (fun c => c.page_content ++ [' '])).flatten
        let overlap := sharedWordCount user_answer doc_content
        evaluation ++
          (if 10 < overlap then
            "Your answer shows good engagement with the document content. ".data
           else if 5 < overlap then
            "Your answer has some connection to the document content. ".data
           else
            "Consider referencing more specific details from the document. ".data)
    evaluation ++
      (if word_count < 20 then
        "Try to provide more detailed explanations and examples from the document.".data
       else if 150 < word_count then comprehensiveMsg
       else "Good length for your response.".data)

/-- The reply of `evaluate_user_answer` when retrieval returns nothing. -/
def cannotEvaluateMsg : Str :=
  "I cannot evaluate your answer as no relevant document content was found for this question.".data

/-- One `[SOURCE i - S, Para P]` context block of `evaluate_user_answer`
(chunk text truncated to 300 characters). -/
def evalSourceBlock (i : Nat) (d : Doc) : Str :=
  "[SOURCE ".data ++ natStr (i + 1) ++ " - ".data ++ d.md.sec
    ++ ", Para ".data ++ natStr d.md.par ++ "]\n".data ++ d.page_content.take 300

/-- The context string of `evaluate_user_answer`: blocks joined with blank
lines, truncated to 1800 characters with an ellipsis marker. -/
def evalContext (chunks : List Doc) : Str :=
  let context := joinSep ("\n\n".data) (chunks.enum.map (fun id => evalSourceBlock id.1 id.2))
  if 1800 < context.length then context.take 1800 ++ "...".data else context

/-- How a run of the evaluation retry loop ends:  a grounded non-empty
response (returned stripped), the in-loop fallback
`generate_fallback_evaluation(question, user_answer, chunks)` (ungrounded
response, or loop exhausted on empty responses), or the exception path where
the re-raised last-attempt error is caught by the outermost handler, which
calls `generate_fallback_evaluation(question, user_answer, [])` with an
EMPTY chunk list. -/
inductive EvalOut where
  | good (r : Str)
  | fallbackRetrieved
  | fallbackEmptyHands
deriving DecidableEq, Repr

/-- The `for attempt in range(max_retries)` loop of `evaluate_user_answer`,
with the invocation count. -/
def evalAttempts (llm : LLM) (context user_answer : Str) : List Nat → EvalOut × Nat
  | [] => (EvalOut.fallbackRetrieved, 0)
  | i :: rest =>
    match llm.invoke i with
    | none =>
        if rest = [] then (EvalOut.fallbackEmptyHands, 1)
        else
          let r := evalAttempts llm context user_answer rest
          (r.1, r.2 + 1)
    | some resp =>
        if trim resp = [] then
          let r := evalAttempts llm context user_answer rest
          (r.1, r.2 + 1)
        else if isEvaluationGrounded resp context user_answer then (EvalOut.good (trim resp), 1)
        else (EvalOut.fallbackRetrieved, 1)

/-- `evaluate_user_answer` from logic_quiz.py.  `retrieved` is the outcome of
`retrieve_relevant_chunks(question, k=5)`, which returns `[]` on any internal
failure (including a missing index).  A `get_llm` failure also lands in the
outermost handler, with an empty chunk list for the fallback.  The second
component counts generative-model invocations. -/
def evaluateUserAnswer (retrieved : List Doc) (llm : LLM)
    (question user_answer : Str) : Str × Nat :=
  if retrieved = [] then (cannotEvaluateMsg, 0)
  else
    let context := evalContext retrieved
    if llm.init then
      match evalAttempts llm context user_answer [0, 1, 2] with
      | (EvalOut.good r, n) => (r, n)
      | (EvalOut.fallbackRetrieved, n) =>
          (generateFallbackEvaluation question user_answer retrieved, n)
      | (EvalOut.fallbackEmptyHands, n) =>
          (generateFallbackEvaluation question user_answer [], n)
    else
      (generateFallbackEvaluation question user_answer [], 0)

/-- The `selected_chunks` computation of `generate_challenge_questions`:
first chunk per fresh section while fewer than 8 are selected; if nothing was
selected (only possible when the list is empty), the first 5 chunks. -/
def selectDiverseChunks (chunks : List PChunk) : List PChunk :=
  let sel := (chunks.foldl
    (fun (acc : List PChunk × List Str) c =>
      if ¬ acc.2.contains c.sec ∧ acc.1.length < 8 then (acc.1 ++ [c], c.sec :: acc.2)
      else acc)
    ([], [])).1
  if sel = [] then chunks.take 5 else sel

/-- The word lists of the `invalid_patterns` regexes of `is_valid_question`
(`\s+` between consecutive words). -/
def invalidQuestionPhrases : List (List Str) :=
  [ ["external".data, "knowledge".data],
    ["outside".data, "the".data, "document".data],
    ["research".data, "further".data],
    ["google".data, "search".data],
    ["additional".data, "sources".data] ]

/-- Whether `s` starts with the given words separated by at least one
whitespace character each (anchored at the start of `s`). -/
def phraseAt : List Str → Str → Bool
  | [], _ => true
  | [w], s => w.isPrefixOf s
  | w :: w2 :: ws, s =>
      if w.isPrefixOf s then
        let r := s.drop w.length
        let r2 := r.dropWhile pySpace
        decide (r ≠ r2) && phraseAt (w2 :: ws) r2
      else false

/-- `re.search` of a `word\s+word...` pattern: the phrase occurs somewhere. -/
def containsPhrase (ws : List Str) (s : Str) : Bool :=
  s.tails.any (fun suf => phraseAt ws suf)

/-- `is_valid_question` from logic_quiz.py: at least 10 characters, ends in a
question mark, mentions no phrase implying external knowledge, and shares
more than 2 distinct words with the first 5 chunks' text. -/
def isValidQuestion (question : Str) (doc_chunks : List PChunk) : Bool :=
  if question = [] ∨ question.length < 10 then false
  else if question.getLast? ≠ some '?' then false
  else
    let ql := lowerStr question
    if invalidQuestionPhrases.any (fun ws => containsPhrase ws ql) then false
    else
      let doc_text := joinSep [' '] ((doc_chunks.take 5).map (fun c => c.text))
      2 < sharedWordCount question doc_text

/-- The first line pattern of `parse_and_validate_questions` matching a
(stripped, non-empty) line, with its captured question: numbered `1.`/`1)`,
bulleted `-`/`•`, or a bare line ending in `?`.  The captured group `(.+\?)`
needs at least one character before the final `?`.  (In the corner case of a
whitespace-only gap before a lone `?`, regex backtracking would capture part
of the gap; such captures are shorter than 10 characters and discarded by
`is_valid_question` on either reading.) -/
def parseLineQuestion (l : Str) : Option Str :=
  let qTail : Str → Option Str := fun rest =>
    let r := rest.dropWhile pySpace
    if 2 ≤ r.length ∧ r.getLast? = some '?' then some r else none
  let d := l.takeWhile Char.isDigit
  let num :=
    match d, l.drop d.length with
    | _ :: _, '.' :: rest => qTail rest
    | _ :: _, ')' :: rest => qTail rest
    | _, _ => none
  let bullet :=
    match l with
    | '-' :: rest => qTail rest
    | '•' :: rest => qTail rest
    | _ => none
  let bare := if 2 ≤ l.length ∧ l.getLast? = some '?' then some l else none
  (num.orElse (fun _ => bullet)).orElse (fun _ => bare)

/-- `parse_and_validate_questions` from logic_quiz.py: strip the response,
split into lines, capture a question per line with the first matching
pattern, and keep only valid ones. -/
def parseAndValidateQuestions (response : Str) (doc_chunks : List PChunk) : List Str :=
  (pyLines (trim response)).filterMap (fun line =>
    let l := trim line
    if l = [] then none
    else
      match parseLineQuestion l with
      | some q => if isValidQuestion q doc_chunks then some q else none
      | none => none)

/-- The three hardcoded questions returned for an empty chunk list. -/
def hardcodedQuestions : List Str :=
  [ "What are the main points discussed in this document?".data,
    "How are the different sections related to each other?".data,
    "What conclusions can be drawn from the content?".data ]

/-- The fixed pool of generic analytical questions. -/
def genericFallbackQuestions : List Str :=
  [ "What are the main themes or arguments presented in this document?".data,
    "What evidence or examples are provided to support the main points?".data,
    "What questions or implications does this document raise for further consideration?".data,
    "How might the information in this document be applied or interpreted?".data,
    "What connections can be made between different parts of this document?".data ]

/-- `generate_fallback_questions` from logic_quiz.py.  The `sections` and
`key_terms` Python sets are modelled as insertion-ordered deduplicated lists
(set iteration order is unspecified in Python; only emptiness, size and a
bounded choice of section names feed the result). -/
def generateFallbackQuestions (doc_chunks : List PChunk) (num : Nat) : List Str :=
  if doc_chunks = [] then hardcodedQuestions.take num
  else
    let scan := doc_chunks.take 10
    let sections := (scan.filterMap (fun c => if c.sec ≠ [] then some c.sec else none)).dedup
    let key_terms := ((scan.map (fun c => pyWords (lowerStr c.text))).flatten.filter
      (fun w => 6 < w.length ∧ w.all Char.isAlpha)).dedup
    let questions :=
      (if 1 < sections.length then
        ["How do the different sections (".data ++ joinSep (", ".data) (sections.take 3)
          ++ ") relate to each other?".data]
       else []) ++
      (if key_terms ≠ [] then
        ["What is the significance of the key concepts discussed in this document?".data]
       else []) ++
      genericFallbackQuestions
    questions.take num

/-- How a run of the question-generation retry loop ends: enough (or some)
valid questions, loop exhausted on empty/invalid responses (fallback on the
selected chunks), or the last-attempt exception re-raised and caught by the
outermost handler (fallback on the original chunk list). -/
inductive QGenOut where
  | questions (qs : List Str)
  | exhausted
  | raised
deriving DecidableEq, Repr

/-- The `for attempt in range(max_retries)` loop of
`generate_challenge_questions`, with the invocation count.  A non-empty
response with at least `num` valid questions returns their prefix; with some
but fewer, valid questions padded by fallback ones; with none, the loop
continues. -/
def questionAttempts (llm : LLM) (selected : List PChunk) (num : Nat) :
    List Nat → QGenOut × Nat
  | [] => (QGenOut.exhausted, 0)
  | i :: rest =>
    match llm.invoke i with
    | none =>
        if rest = [] then (QGenOut.raised, 1)
        else
          let r := questionAttempts llm selected num rest
          (r.1, r.2 + 1)
    | some resp =>
        if trim resp = [] then
          let r := questionAttempts llm selected num rest
          (r.1, r.2 + 1)
        else
          let qs := parseAndValidateQuestions resp selected
          if num ≤ qs.length then (QGenOut.questions (qs.take num), 1)
          else if qs ≠ [] then
            (QGenOut.questions (qs ++ generateFallbackQuestions selected (num - qs.length)), 1)
          else
            let r := questionAttempts llm selected num rest
            (r.1, r.2 + 1)

/-- `generate_challenge_questions` from logic_quiz.py.  `get_llm()` is called
before anything else, so an unavailable model (`init = false`) lands in the
outermost handler, which falls back on the original chunk list; so does an
exception on the last retry.  The second component counts generative-model
invocations. -/
def generateChallengeQuestions (llm : LLM) (doc_chunks : List PChunk)
    (num : Nat) : List Str × Nat :=
  if llm.init then
    let selected := selectDiverseChunks doc_chunks
    match questionAttempts llm selected num [0, 1, 2] with
    | (QGenOut.questions qs, n) => (qs, n)
    | (QGenOut.exhausted, n) => (generateFallbackQuestions selected num, n)
    | (QGenOut.raised, n) => (generateFallbackQuestions doc_chunks num, n)
  else
    (generateFallbackQuestions doc_chunks num, 0)

/-! ## Concrete instances used by the claim theorems -/

/-- An oracle for an entirely unavailable generative model: `get_llm` raises. -/
def llmUnavailable : LLM := ⟨false, fun _ => none⟩

/-- A chunking oracle where `split_text` returns the section unsplit. -/
def idSplit : Str → Except Unit (List Str) := fun s => Except.ok [s]

/-- A chunking oracle where `split_text` raises. -/
def failSplit : Str → Except Unit (List Str) := fun _ => Except.error ()

/-- A duplicated-header document: the second `Introduction` header makes the
final flush overwrite the text accumulated after the first one. -/
def dupHeaderText : Str := "Introduction\nline A\nIntroduction\nline B".data

/-- The two-section scenario document from the specification. -/
def scenarioText : Str :=
  "Introduction\nThis is the intro.\n\nConclusion\nThis wraps up.".data

/-- A single valid chunk dict handed to `build_vector_store`. -/
def c3chunks : List InChunk :=
  [ InChunk.mk (some ("This chunk has plenty of text to embed.".data))
      (some ("Introduction".data)) (some 1) ]

/-- A retrieved document for the evaluation scenarios. -/
def c5doc : Doc :=
  ⟨"The document discusses the testing of processing pipelines in detail.".data,
   ⟨"Introduction".data, 1, 1⟩⟩

/-- A model whose first response cites a source, hence passes the
groundedness check even against an empty user answer. -/
def c5llm : LLM :=
  ⟨true, fun _ => some ("According to SOURCE 1 the document discusses testing.".data)⟩

/-- A user answer of five distinct words. -/
def c8ua : Str := "alpha beta gamma delta epsilon".data

/-- A retrieved chunk sharing exactly those five distinct words. -/
def c8doc : Doc :=
  ⟨"alpha beta gamma delta epsilon".data, ⟨"Main Content".data, 1, 1⟩⟩

/-- A 450-character section: the fallback slicing yields a first slice of
450 characters (not 500) followed by a second slice of 50. -/
def ex450 : Str := List.replicate 450 'a'

/-- A single-chunk document for the challenge-question scenario. -/
def c9chunks : List PChunk :=
  [ PChunk.mk ("Main Content".data) 1 ("a single chunk of document text".data) ]

/-- A document whose `Conclusion` section consists of one short line, so all
its chunks are discarded by the 30-character noise filter. -/
def c10text : Str :=
  "Introduction\nThe introduction section has plenty of content to keep.\nConclusion\nshort".data

/-! ## Specification-side formulations (for refinement claims) -/

/-- The number of distinct words shared by two strings, as a finite-set
intersection cardinality (the specification's wording of the overlap
heuristic). -/
def specSharedWords (a b : Str) : Nat :=
  ((pyWords (lowerStr a)).toFinset ∩ (pyWords (lowerStr b)).toFinset).card

/-- The specification's acceptance condition for answer groundedness: the
response contains the token `SOURCE` or `SECTION` case-insensitively
(i.e. in its uppercased form), or response and context share more than 3
distinct words. -/
def SpecAnswerGrounded (response context : Str) : Prop :=
  (("SOURCE".data) <:+: upperStr response ∨ ("SECTION".data) <:+: upperStr response)
  ∨ 3 < specSharedWords response context

/-- The specification's acceptance condition for evaluation groundedness:
a case-insensitive `SOURCE`/`SECTION` token, or more than 5 distinct words
shared with the context AND more than 3 shared with the user's answer. -/
def SpecEvaluationGrounded (evaluation context user_answer : Str) : Prop :=
  (("SOURCE".data) <:+: upperStr evaluation ∨ ("SECTION".data) <:+: upperStr evaluation)
  ∨ (5 < specSharedWords evaluation context ∧ 3 < specSharedWords evaluation user_answer)

/-! ## General lemmas about the string model -/

theorem head_dropWhile_false (p : Char → Bool) :
    ∀ (l : Str) (c : Char), (l.dropWhile p).head? = some c → p c = false := by
  intro l
  induction l with
  | nil => intro c h; simp at h
  | cons a t ih =>
      intro c h
      by_cases hpa : p a
      · exact ih c (by simpa [List.dropWhile_cons, hpa] using h)
      · rw [List.dropWhile_cons, if_neg (by simp [hpa])] at h
        simp only [List.head?_cons, Option.some.injEq] at h
        subst h
        simpa using hpa

theorem infix_dropWhile_of_head (p : Char → Bool) (t : Str) (ht : t ≠ [])
    (hh : ∀ c, t.head? = some c → p c = false) :
    ∀ u v : Str, t <:+: ((u ++ (t ++ v)).dropWhile p) := by
  intro u
  induction u with
  | nil =>
      intro v
      match t, ht with
      | c :: t2, _ =>
        have hc : p c = false := hh c rfl
        rw [List.nil_append, List.cons_append, List.dropWhile_cons, if_neg (by simp [hc])]
        exact ⟨[], v, by simp⟩
  | cons a u ih =>
      intro v
      by_cases hpa : p a
      · simpa [List.cons_append, List.dropWhile_cons, hpa] using ih v
      · rw [List.cons_append, List.dropWhile_cons, if_neg (by simp [hpa])]
        exact ⟨a :: u, v, by simp⟩

theorem infix_trim_of_ends (t s : Str) (ht : t ≠ [])
    (hh : ∀ c, t.head? = some c → pySpace c = false)
    (hl : ∀ c, t.getLast? = some c → pySpace c = false)
    (hsub : t <:+: s) : t <:+: trim s := by
  have h1 : t <:+: (s.dropWhile pySpace) := by
    obtain ⟨u, v, huv⟩ := hsub
    rw [← huv, List.append_assoc]
    exact infix_dropWhile_of_head pySpace t ht hh u v
  have h2 : t.reverse <:+: (s.dropWhile pySpace).reverse := h1.reverse
  have h3 : t.reverse <:+: ((s.dropWhile pySpace).reverse.dropWhile pySpace) := by
    obtain ⟨u2, v2, h2e⟩ := h2
    rw [← h2e, List.append_assoc]
    exact infix_dropWhile_of_head pySpace t.reverse (by simpa using ht)
      (fun c hc => hl c (by rwa [List.head?_reverse] at hc)) u2 v2
  have h4 := h3.reverse
  rw [List.reverse_reverse] at h4
  exact h4

theorem trim_head_not_space (s : Str) (c : Char) (h : (trim s).head? = some c) :
    pySpace c = false := by
  unfold trim at h
  rw [List.head?_reverse] at h
  have hsuf : ((s.dropWhile pySpace).reverse.dropWhile pySpace)
      <:+ (s.dropWhile pySpace).reverse := List.dropWhile_suffix _
  obtain ⟨u, hu⟩ := hsuf
  have hne : (s.dropWhile pySpace).reverse.dropWhile pySpace ≠ [] := by
    intro he
    rw [he] at h
    simp at h
  have hlast : (s.dropWhile pySpace).reverse.getLast? = some c := by
    rw [← hu, List.getLast?_append_of_ne_nil u hne]
    exact h
  rw [List.getLast?_reverse] at hlast
  exact head_dropWhile_false pySpace _ c hlast

theorem trim_last_not_space (s : Str) (c : Char) (h : (trim s).getLast? = some c) :
    pySpace c = false := by
  unfold trim at h
  rw [List.getLast?_reverse] at h
  exact head_dropWhile_false pySpace _ c h

theorem trim_infix_self (s : Str) : trim s <:+: s := by
  have h1 : s.dropWhile pySpace <:+ s := List.dropWhile_suffix _
  have h2 : (s.dropWhile pySpace).reverse.dropWhile pySpace
      <:+ (s.dropWhile pySpace).reverse := List.dropWhile_suffix _
  have h3 := h2.reverse
  rw [List.reverse_reverse] at h3
  exact h3.isInfix.trans h1.isInfix

theorem ne_nil_of_infix_ne_nil (t s : Str) (ht : t ≠ []) (h : t <:+: s) : s ≠ [] := by
  have hle := h.length_le
  have ht2 : 0 < t.length := List.length_pos.mpr ht
  exact List.length_pos.mp (lt_of_lt_of_le ht2 hle)

theorem infix_joinNL (l : Str) : ∀ (buf : List Str), l ∈ buf → l <:+: joinNL buf := by
  intro buf
  induction buf with
  | nil => intro h; simp at h
  | cons b rest ih =>
      intro hl
      cases rest with
      | nil =>
          simp only [List.mem_singleton] at hl
          subst hl
          exact List.infix_rfl
      | cons b2 rest2 =>
          rcases List.mem_cons.mp hl with rfl | hmem
          · exact ⟨[], '\n' :: joinNL (b2 :: rest2), by simp [joinNL]⟩
          · obtain ⟨u, v, he⟩ := ih hmem
            exact ⟨b ++ '\n' :: u, v, by simp [joinNL, ← he]⟩

theorem dictSet_eq_append (d : List (Str × Str)) (k v : Str)
    (h : ∀ p ∈ d, p.1 ≠ k) : dictSet d k v = d ++ [(k, v)] := by
  unfold dictSet
  rw [if_neg]
  simp only [List.any_eq_true, decide_eq_true_eq, not_exists, not_and]
  intro p hp
  exact h p hp

/-! ## The section segmenter: no-text-loss invariant -/

theorem segStep_blank (st : SegState) (line : Str) (h : trim line = []) :
    segStep st line = st := by
  simp [segStep, h]

theorem segStep_body (st : SegState) (line : Str) (h : trim line ≠ [])
    (hf : SECTION_HEADERS.find? (fun hd => headerMatch hd (trim line)) = none) :
    segStep st line = { st with buffer := st.buffer ++ [line] } := by
  simp [segStep, h, hf]

theorem segStep_header (st : SegState) (line : Str) (hd : Str) (h : trim line ≠ [])
    (hf : SECTION_HEADERS.find? (fun hd2 => headerMatch hd2 (trim line)) = some hd) :
    segStep st line
      = { sections :=
            if st.buffer = [] then st.sections
            else dictSet st.sections st.current (trim (joinNL st.buffer))
          current := hd
          buffer := [] } := by
  simp [segStep, h, hf]

theorem matchedHeaderOf_blank (line : Str) (h : trim line = []) :
    matchedHeaderOf line = none := by
  simp [matchedHeaderOf, h]

theorem matchedHeaderOf_of_ne (line : Str) (h : trim line ≠ []) :
    matchedHeaderOf line = SECTION_HEADERS.find? (fun hd => headerMatch hd (trim line)) := by
  simp [matchedHeaderOf, h]

/-- Invariant of the `for line in lines` fold of `split_into_sections`,
generalized over the starting state: existing entries survive, the
current section name never collides with a stored key, and every
buffered or future non-header non-blank line ends up (as a trimmed infix)
in some stored section value or in the final buffer — provided the headers
still to be matched are fresh and pairwise distinct. -/
theorem segFold_invariant :
    ∀ (rest : List Str) (st : SegState),
      (rest.filterMap matchedHeaderOf).Nodup →
      (∀ h ∈ rest.filterMap matchedHeaderOf,
          (∀ p ∈ st.sections, p.1 ≠ h) ∧ h ≠ st.current) →
      (∀ p ∈ st.sections, p.1 ≠ st.current) →
      (∀ p ∈ st.sections, p ∈ (rest.foldl segStep st).sections)
      ∧ (∀ p ∈ (rest.foldl segStep st).sections, p.1 ≠ (rest.foldl segStep st).current)
      ∧ (∀ l, (l ∈ st.buffer ∨ (l ∈ rest ∧ matchedHeaderOf l = none)) → trim l ≠ [] →
          (∃ p ∈ (rest.foldl segStep st).sections, trim l <:+: p.2)
          ∨ l ∈ (rest.foldl segStep st).buffer) := by
  intro rest
  induction rest with
  | nil =>
      intro st _ _ hC
      refine ⟨fun p hp => hp, hC, ?_⟩
      intro l hl _
      rcases hl with hl | ⟨hl, _⟩
      · exact Or.inr hl
      · simp at hl
  | cons line rest ih =>
      intro st hA hB hC
      rw [List.foldl_cons]
      by_cases htl : trim line = []
      · rw [segStep_blank st line htl]
        have hmh : matchedHeaderOf line = none := matchedHeaderOf_blank line htl
        rw [List.filterMap_cons_none hmh] at hA hB
        obtain ⟨P1, P2, P3⟩ := ih st hA hB hC
        refine ⟨P1, P2, ?_⟩
        intro l hl hne
        rcases hl with hl | ⟨hl, hlnone⟩
        · exact P3 l (Or.inl hl) hne
        · rcases List.mem_cons.mp hl with rfl | hl2
          · exact absurd htl hne
          · exact P3 l (Or.inr ⟨hl2, hlnone⟩) hne
      · have hmh := matchedHeaderOf_of_ne line htl
        cases hfind : SECTION_HEADERS.find? (fun hd => headerMatch hd (trim line)) with
        | none =>
            have hmh2 : matchedHeaderOf line = none := by rw [hmh, hfind]
            rw [segStep_body st line htl hfind]
            rw [List.filterMap_cons_none hmh2] at hA hB
            obtain ⟨P1, P2, P3⟩ :=
              ih { st with buffer := st.buffer ++ [line] } hA hB hC
            refine ⟨P1, P2, ?_⟩
            intro l hl hne
            rcases hl with hl | ⟨hl, hlnone⟩
            · exact P3 l (Or.inl (List.mem_append_left _ hl)) hne
            · rcases List.mem_cons.mp hl with rfl | hl2
              · exact P3 l (Or.inl (List.mem_append_right _ (by simp))) hne
              · exact P3 l (Or.inr ⟨hl2, hlnone⟩) hne
        | some hd =>
            have hmh2 : matchedHeaderOf line = some hd := by rw [hmh, hfind]
            rw [segStep_header st line hd htl hfind]
            rw [List.filterMap_cons_some hmh2] at hA hB
            have hA1 : hd ∉ rest.filterMap matchedHeaderOf := (List.nodup_cons.mp hA).1
            have hA2 : (rest.filterMap matchedHeaderOf).Nodup := (List.nodup_cons.mp hA).2
            have hBhd := hB hd (List.mem_cons_self _ _)
            set tv := trim (joinNL st.buffer) with htv
            set S1 := if st.buffer = [] then st.sections
                else dictSet st.sections st.current tv with hS1
            have hS1mem : ∀ q ∈ S1, q ∈ st.sections ∨ q = (st.current, tv) := by
              intro q hq
              rw [hS1] at hq
              by_cases hb : st.buffer = []
              · rw [if_pos hb] at hq
                exact Or.inl hq
              · rw [if_neg hb, dictSet_eq_append st.sections st.current tv hC] at hq
                rcases List.mem_append.mp hq with h1 | h1
                · exact Or.inl h1
                · simp only [List.mem_singleton] at h1
                  exact Or.inr h1
            have hS1mono : ∀ q ∈ st.sections, q ∈ S1 := by
              intro q hq
              rw [hS1]
              by_cases hb : st.buffer = []
              · rw [if_pos hb]; exact hq
              · rw [if_neg hb, dictSet_eq_append st.sections st.current tv hC]
                exact List.mem_append_left _ hq
            have hB2 : ∀ h2 ∈ rest.filterMap matchedHeaderOf,
                (∀ p ∈ S1, p.1 ≠ h2) ∧ h2 ≠ hd := by
              intro h2 hh2
              have hB2h := hB h2 (List.mem_cons_of_mem _ hh2)
              refine ⟨?_, ?_⟩
              · intro p hp
                rcases hS1mem p hp with hp2 | hp2
                · exact hB2h.1 p hp2
                · rw [hp2]
                  intro he
                  exact hB2h.2 he.symm
              · intro he
                subst he
                exact hA1 hh2
            have hC2 : ∀ p ∈ S1, p.1 ≠ hd := by
              intro p hp
              rcases hS1mem p hp with hp2 | hp2
              · exact hBhd.1 p hp2
              · rw [hp2]
                intro he
                exact hBhd.2 he.symm
            obtain ⟨P1, P2, P3⟩ := ih ⟨S1, hd, []⟩ hA2 hB2 hC2
            refine ⟨fun p hp => P1 p (hS1mono p hp), P2, ?_⟩
            intro l hl hne
            rcases hl with hl | ⟨hl, hlnone⟩
            · have hbne : st.buffer ≠ [] := by
                intro he
                rw [he] at hl
                simp at hl
              have hmemS1 : (st.current, tv) ∈ S1 := by
                rw [hS1, if_neg hbne, dictSet_eq_append st.sections st.current tv hC]
                exact List.mem_append_right _ (by simp)
              have hinf : trim l <:+: tv :=
                infix_trim_of_ends _ _ hne (trim_head_not_space l) (trim_last_not_space l)
                  ((trim_infix_self l).trans (infix_joinNL l st.buffer hl))
              exact Or.inl ⟨(st.current, tv), P1 _ hmemS1, hinf⟩
            · rcases List.mem_cons.mp hl with rfl | hl2
              · rw [hmh2] at hlnone
                exact absurd hlnone (by simp)
              · exact P3 l (Or.inr ⟨hl2, hlnone⟩) hne

/-- C2 (amended): for every input text in which the canonical headers matched
by `split_into_sections` are pairwise distinct, every non-blank line that is
not classified as a header is preserved (its stripped form occurs inside some
section value of the result), and every section's text in the result is
non-empty after trimming.  Without the distinctness proviso the claim fails:
a repeated canonical header makes the dict assignment overwrite the earlier
section's accumulated text (see the counterexample). -/
theorem splitIntoSections_preserves (text : Str)
    (hnd : ((pyLines text).filterMap matchedHeaderOf).Nodup) :
    (∀ l ∈ pyLines text, trim l ≠ [] → matchedHeaderOf l = none →
        ∃ p ∈ splitIntoSections text, trim l <:+: p.2)
    ∧ (∀ p ∈ splitIntoSections text, trim p.2 ≠ []) := by
  have hB0 : ∀ h ∈ (pyLines text).filterMap matchedHeaderOf,
      (∀ p ∈ ([] : List (Str × Str)), p.1 ≠ h) ∧ h ≠ ("Main Content".data) := by
    intro h hh
    refine ⟨by simp, ?_⟩
    have hsh : h ∈ SECTION_HEADERS := by
      obtain ⟨lx, _, hfx⟩ := List.mem_filterMap.mp hh
      by_cases hb : trim lx = []
      · rw [matchedHeaderOf_blank lx hb] at hfx
        exact absurd hfx (by simp)
      · rw [matchedHeaderOf_of_ne lx hb] at hfx
        exact List.mem_of_find?_eq_some hfx
    intro he
    subst he
    revert hsh
    decide
  obtain ⟨P1, P2, P3⟩ :=
    segFold_invariant (pyLines text) ⟨[], "Main Content".data, []⟩ hnd hB0 (by simp)
  set stF := (pyLines text).foldl segStep ⟨[], "Main Content".data, []⟩ with hstF
  have hgoal : splitIntoSections text
      = (if stF.buffer = [] then stF.sections
         else dictSet stF.sections stF.current (trim (joinNL stF.buffer))).filter
          (fun p => trim p.2 ≠ []) := by
    simp only [splitIntoSections, hstF]
  constructor
  · intro l hl hne hnone
    rw [hgoal]
    rcases P3 l (Or.inr ⟨hl, hnone⟩) hne with ⟨p, hp, hinf⟩ | hbuf
    · have hmem2 : p ∈ (if stF.buffer = [] then stF.sections
          else dictSet stF.sections stF.current (trim (joinNL stF.buffer))) := by
        by_cases hb : stF.buffer = []
        · rw [if_pos hb]
          exact hp
        · rw [if_neg hb, dictSet_eq_append _ _ _ P2]
          exact List.mem_append_left _ hp
      refine ⟨p, List.mem_filter.mpr ⟨hmem2, ?_⟩, hinf⟩
      have hne2 : trim p.2 ≠ [] :=
        ne_nil_of_infix_ne_nil (trim l) _ hne
          (infix_trim_of_ends _ _ hne (trim_head_not_space l) (trim_last_not_space l) hinf)
      simpa using hne2
    · have hbne : stF.buffer ≠ [] := by
        intro he
        rw [he] at hbuf
        simp at hbuf
      have hinf : trim l <:+: trim (joinNL stF.buffer) :=
        infix_trim_of_ends _ _ hne (trim_head_not_space l) (trim_last_not_space l)
          ((trim_infix_self l).trans (infix_joinNL l stF.buffer hbuf))
      have hmem2 : (stF.current, trim (joinNL stF.buffer))
          ∈ (if stF.buffer = [] then stF.sections
             else dictSet stF.sections stF.current (trim (joinNL stF.buffer))) := by
        rw [if_neg hbne, dictSet_eq_append _ _ _ P2]
        exact List.mem_append_right _ (by simp)
      refine ⟨(stF.current, trim (joinNL stF.buffer)), List.mem_filter.mpr ⟨hmem2, ?_⟩, hinf⟩
      have hne2 : trim (trim (joinNL stF.buffer)) ≠ [] :=
        ne_nil_of_infix_ne_nil (trim l) _ hne
          (infix_trim_of_ends _ _ hne (trim_head_not_space l) (trim_last_not_space l) hinf)
      simpa using hne2
  · intro p hp
    rw [hgoal] at hp
    have := List.mem_filter.mp hp
    simpa using this.2

/-- C2, counterexample to the claim as stated: in a document where the
canonical header `Introduction` occurs twice, the non-header line `line A`
(accumulated under the first occurrence) is silently lost — the final flush
overwrites the `Introduction` entry with the text of the second occurrence,
so no section value contains it. -/
theorem claim_C2_counterexample :
    ("line A".data) ∈ pyLines dupHeaderText
    ∧ trim ("line A".data) ≠ []
    ∧ matchedHeaderOf ("line A".data) = none
    ∧ splitIntoSections dupHeaderText = [("Introduction".data, "line B".data)]
    ∧ ¬ ∃ p ∈ splitIntoSections dupHeaderText, trim ("line A".data) <:+: p.2 := by
  refine ⟨by decide, by decide, by decide, by decide, by decide⟩

/-- Witness for C2 (amended) on the specification's own scenario document:
its matched headers (`Introduction`, `Conclusion`) are distinct, so every
non-header non-blank line survives into the section map and all section
values strip to non-empty. -/
theorem claim_C2_witness :
    (∀ l ∈ pyLines scenarioText, trim l ≠ [] → matchedHeaderOf l = none →
        ∃ p ∈ splitIntoSections scenarioText, trim l <:+: p.2)
    ∧ (∀ p ∈ splitIntoSections scenarioText, trim p.2 ≠ []) :=
  splitIntoSections_preserves scenarioText (by decide)

/-- C1: calling the answer operation when no persisted index exists makes
`load_vector_store` fail with the not-found `ValueError`, and
`generate_answer_with_sources` surfaces exactly that failure as an
error-confidence result carrying the "no document processed" message, with
no sources, no generative-model invocation, and none of the normal
confidences (`high`/`medium`/`low`). -/
theorem claim_C1_answer_without_index (llm : LLM) (query : Str) :
    loadVectorStore none
      = Except.error ("Vector store not found. Please process a document first.".data)
    ∧ generateAnswerWithSources none llm query
      = ({ answer :=
             ("Error generating answer: Vector store not found. Please process a document first.".data)
           sources := []
           confidence := "error".data }, 0)
    ∧ (generateAnswerWithSources none llm query).1.confidence ≠ ("high".data)
    ∧ (generateAnswerWithSources none llm query).1.confidence ≠ ("medium".data)
    ∧ (generateAnswerWithSources none llm query).1.confidence ≠ ("low".data) := by
  have h : generateAnswerWithSources none llm query
      = ({ answer :=
             ("Error generating answer: Vector store not found. Please process a document first.".data)
           sources := []
           confidence := "error".data }, 0) := rfl
  refine ⟨rfl, h, ?_, ?_, ?_⟩ <;> rw [h] <;> decide

/-- C4: when the index loads but similarity search retrieves zero chunks,
`generate_answer_with_sources` returns the low-confidence no-information
result with an empty source list, and the generative model is never invoked
(invocation count 0) — for every model oracle and query. -/
theorem claim_C4_empty_retrieval_low (llm : LLM) (query : Str) :
    generateAnswerWithSources (some []) llm query
      = ({ answer := "No relevant information found in the document to answer your question.".data
           sources := []
           confidence := "low".data }, 0) := rfl

/-- C3, counterexample to the claim as stated: a single surviving chunk is
stored with `chunk_id` 1, not the 0-based enumeration index 0 — the source
appends the text first and then uses `len(texts)` as the id. -/
theorem claim_C3_counterexample :
    ∃ docs, buildVectorStore c3chunks = Except.ok docs
      ∧ docs.map (fun d => d.md.chunk_id) = [1]
      ∧ docs.map (fun d => d.md.chunk_id) ≠ [0] :=
  ⟨_, rfl, by decide, by decide⟩

/-- C3 (amended): after discarding chunks with missing/empty/whitespace text,
the i-th surviving chunk (0-based) is stored with `chunk_id = i + 1`, i.e.
the ids are the 1-based enumeration order among surviving chunks, and the
stored page contents are exactly the surviving chunks' texts in order. -/
theorem claim_C3_chunk_ids (chunks : List InChunk) (docs : List Doc)
    (h : buildVectorStore chunks = Except.ok docs) :
    docs.map (fun d => d.md.chunk_id) = List.range' 1 docs.length 1
    ∧ docs.map (fun d => d.page_content)
      = (survivingChunks chunks).map (fun c => c.text.getD []) := by
  simp only [buildVectorStore] at h
  split at h
  · exact absurd h (by simp)
  · rw [Except.ok.injEq] at h
    subst h
    constructor
    · apply List.ext_getElem
      · simp [List.enum_length]
      · intro i h1 h2
        simp [List.getElem_enum, List.getElem_range']
        omega
    · apply List.ext_getElem
      · simp [List.enum_length]
      · intro i h1 h2
        simp [List.getElem_enum]

/-- Witness for C3 (amended) at a concrete one-chunk input. -/
theorem claim_C3_witness :
    ∃ docs, buildVectorStore c3chunks = Except.ok docs
      ∧ docs.map (fun d => d.md.chunk_id) = List.range' 1 docs.length 1
      ∧ docs.map (fun d => d.page_content)
          = (survivingChunks c3chunks).map (fun c => c.text.getD []) :=
  ⟨_, rfl, (claim_C3_chunk_ids c3chunks _ rfl).1, (claim_C3_chunk_ids c3chunks _ rfl).2⟩

/-- C6 (amended): on the recursive-splitting path every chunk returned by
`chunk_section` has stripped length above 30; empty or whitespace-only input
yields `[]`; on the fallback path the result is the fixed-stride slicing
whose k-th slice starts at `400 * k` (consecutive slices 400 characters
apart, hence up to 100 characters of overlap) and has length
`min 500 (n - 400 * k)` — so every slice except possibly the LAST TWO is
exactly 500 characters, but the claim's "exactly 500 except possibly the
last" fails (see the counterexample, where the first of two slices has 450
characters). -/
theorem claim_C6_chunkSection (split : Str → Except Unit (List Str)) (sectionText : Str) :
    (∀ cs, split sectionText = Except.ok cs →
        ∀ c ∈ chunkSection split sectionText, 30 < (trim c).length)
    ∧ (split sectionText = Except.error () → trim sectionText ≠ [] →
        chunkSection split sectionText = fallbackSlices sectionText
        ∧ (fallbackSlices sectionText).length = (sectionText.length + 399) / 400
        ∧ (∀ k, (hk : k < (fallbackSlices sectionText).length) →
            (fallbackSlices sectionText)[k] = (sectionText.drop (400 * k)).take 500
            ∧ ((fallbackSlices sectionText)[k]).length
                = min 500 (sectionText.length - 400 * k)
            ∧ (k + 2 < (fallbackSlices sectionText).length →
                ((fallbackSlices sectionText)[k]).length = 500)))
    ∧ (trim sectionText = [] → chunkSection split sectionText = []) := by
  have hlen : (fallbackSlices sectionText).length = (sectionText.length + 399) / 400 := by
    simp [fallbackSlices, fallbackStarts, List.length_range']
  refine ⟨?_, ?_, ?_⟩
  · intro cs hok c hc
    by_cases htb : trim sectionText = []
    · simp [chunkSection, htb] at hc
    · simp only [chunkSection, if_neg htb, hok] at hc
      have := List.mem_filter.mp hc
      simpa using this.2
  · intro herr htn
    refine ⟨by simp [chunkSection, htn, herr], hlen, ?_⟩
    intro k hk
    have hget : (fallbackSlices sectionText)[k] = (sectionText.drop (400 * k)).take 500 := by
      simp [fallbackSlices, fallbackStarts, List.getElem_range']
    refine ⟨hget, ?_, ?_⟩
    · rw [hget]
      simp [List.length_take, List.length_drop]
    · intro hk2
      rw [hget]
      rw [hlen] at hk2
      have hmul := Nat.div_mul_le_self (sectionText.length + 399) 400
      simp only [List.length_take, List.length_drop]
      omega
  · intro htb
    simp [chunkSection, htb]

/-- C6, counterexample to the claim as stated: for a 450-character section on
the fallback path there are two slices of lengths 450 and 50 — a slice other
than the last is not 500 characters long. -/
theorem claim_C6_counterexample :
    chunkSection failSplit ex450 = [List.replicate 450 'a', List.replicate 50 'a']
    ∧ ¬ (∀ k < (chunkSection failSplit ex450).length - 1,
          ((chunkSection failSplit ex450).getD k []).length = 500) := by
  exact ⟨by decide, by decide⟩

/-- Witness for C6 (amended): the recursive-path bound at a concrete section
and splitter, and the fallback equation at the 450-character section. -/
theorem claim_C6_witness :
    (∀ c ∈ chunkSection idSplit ("This section text is long enough to chunk properly.".data),
        30 < (trim c).length)
    ∧ chunkSection failSplit ex450 = fallbackSlices ex450 :=
  ⟨(claim_C6_chunkSection idSplit _).1 _ rfl,
   ((claim_C6_chunkSection failSplit ex450).2.1 rfl (by decide)).1⟩

/-- C5, counterexample to the claim as stated: with a retrieved chunk, an
available model, and a source-citing model response, `evaluate_user_answer`
on an EMPTY user answer invokes the generative model once and returns the
model's evaluation, not the length-based canned response — the source has no
early empty-answer check, and the grounding check passes on the `SOURCE`
token alone. -/
theorem claim_C5_counterexample :
    (evaluateUserAnswer [c5doc] c5llm ("What is discussed?".data) []).2 = 1
    ∧ (evaluateUserAnswer [c5doc] c5llm ("What is discussed?".data) []).1
        = ("According to SOURCE 1 the document discusses testing.".data)
    ∧ (evaluateUserAnswer [c5doc] c5llm ("What is discussed?".data) []).1 ≠ briefAnswerMsg := by
  refine ⟨by decide, by decide, by decide⟩

/-- C5 (amended): the length-based canned response for very brief answers is
produced by the fallback evaluation, not by an early check: for every
question, non-empty retrieval and user answer that trims to empty, if the
generative model is unavailable the result is exactly the canned
brief-answer response with zero model invocations.  (When the model is
available it is still invoked even on an empty answer — see the
counterexample.) -/
theorem claim_C5_brief_answer (retrieved : List Doc) (llm : LLM)
    (question user_answer : Str) (hr : retrieved ≠ [])
    (hllm : llm.init = false) (hua : trim user_answer = []) :
    evaluateUserAnswer retrieved llm question user_answer = (briefAnswerMsg, 0) := by
  simp [evaluateUserAnswer, hr, hllm, generateFallbackEvaluation, hua]

/-- Witness for C5 (amended) at a concrete whitespace-only answer. -/
theorem claim_C5_witness :
    evaluateUserAnswer [c5doc] llmUnavailable ("What is discussed?".data) ("   ".data)
      = (briefAnswerMsg, 0) :=
  claim_C5_brief_answer [c5doc] llmUnavailable _ _ (by decide) rfl (by decide)

theorem sharedWordCount_eq_card (a b : Str) :
    sharedWordCount a b
      = ((pyWords (lowerStr a)).toFinset ∩ (pyWords (lowerStr b)).toFinset).card := by
  classical
  unfold sharedWordCount
  rw [← List.toFinset_card_of_nodup ((List.nodup_dedup _).filter _)]
  congr 1
  ext w
  simp [List.mem_filter, List.mem_dedup]

/-- C7: the groundedness checks accept exactly as the specification states —
`is_response_grounded` accepts iff the response contains `SOURCE` or
`SECTION` case-insensitively (uppercased containment) or shares more than 3
distinct words with the context, and `is_evaluation_grounded` accepts iff
the evaluation contains one of the tokens or shares more than 5 distinct
words with the context AND more than 3 with the user's answer (word sharing
stated as a finite-set intersection cardinality). -/
theorem claim_C7_groundedness (response context evaluation user_answer : Str) :
    (isResponseGrounded response context = true ↔ SpecAnswerGrounded response context)
    ∧ (isEvaluationGrounded evaluation context user_answer = true
        ↔ SpecEvaluationGrounded evaluation context user_answer) := by
  constructor
  · unfold isResponseGrounded SpecAnswerGrounded specSharedWords
    split
    · next hyes => exact ⟨fun _ => Or.inl hyes, fun _ => rfl⟩
    · next hno =>
        rw [decide_eq_true_eq, sharedWordCount_eq_card]
        constructor
        · intro hlt
          exact Or.inr (by rwa [Finset.inter_comm] at hlt)
        · rintro (hab | hlt)
          · exact absurd hab hno
          · rwa [Finset.inter_comm]
  · unfold isEvaluationGrounded SpecEvaluationGrounded specSharedWords
    split
    · next hyes => exact ⟨fun _ => Or.inl hyes, fun _ => rfl⟩
    · next hno =>
        rw [decide_eq_true_eq, sharedWordCount_eq_card, sharedWordCount_eq_card]
        constructor
        · intro hlt
          exact Or.inr hlt
        · rintro (hab | hlt)
          · exact absurd hab hno
          · exact hlt

/-- C8, counterexample to the claim as stated: at a distinct-word overlap of
exactly 5 (which the claim places in the "some connection" band of 5 to 10),
the fallback evaluation produces the "reference more specific details"
phrase instead — the source requires `overlap > 5` for "some connection".
(The claimed band also fails at answers shorter than 5 characters; this
counterexample pins the boundary at overlap 5.) -/
theorem claim_C8_counterexample :
    sharedWordCount c8ua (c8doc.page_content ++ [' ']) = 5
    ∧ generateFallbackEvaluation ("Q?".data) c8ua [c8doc]
        = ("Thank you for your 5-word response. ".data)
          ++ ("Consider referencing more specific details from the document. ".data)
          ++ ("Try to provide more detailed explanations and examples from the document.".data)
    ∧ ¬ ("some connection".data) <:+: generateFallbackEvaluation ("Q?".data) c8ua [c8doc] := by
  refine ⟨by decide, by decide, by decide⟩

/-- C8 (amended): for every user answer whose stripped length is at least 5
and every NON-EMPTY retrieved chunk list, the fallback evaluation is the
word-count preamble, an overlap phrase — "good engagement" for overlap
above 10, "some connection" for overlap 6 to 10, otherwise "reference more
specific details" — and a length remark: below 20 words asks for more
detail, above 150 words is called comprehensive, otherwise "good length". -/
theorem claim_C8_fallback_evaluation (question user_answer : Str) (chunks : List Doc)
    (h5 : 5 ≤ (trim user_answer).length) (hc : chunks ≠ []) :
    generateFallbackEvaluation question user_answer chunks
      = ("Thank you for your ".data ++ natStr ((pyWords user_answer).length)
          ++ "-word response. ".data)
        ++ ((if 10 < sharedWordCount user_answer
                (((chunks.take 3).map (fun c => c.page_content ++ [' '])).flatten) then
              "Your answer shows good engagement with the document content. ".data
             else if 6 ≤ sharedWordCount user_answer
                (((chunks.take 3).map (fun c => c.page_content ++ [' '])).flatten)
                ∧ sharedWordCount user_answer
                (((chunks.take 3).map (fun c => c.page_content ++ [' '])).flatten) ≤ 10 then
              "Your answer has some connection to the document content. ".data
             else
              "Consider referencing more specific details from the document. ".data)
          ++ (if (pyWords user_answer).length < 20 then
                "Try to provide more detailed explanations and examples from the document.".data
              else if 150 < (pyWords user_answer).length then comprehensiveMsg
              else "Good length for your response.".data)) := by
  have hne : user_answer ≠ [] := by
    intro he
    rw [he] at h5
    simp [trim] at h5
  simp only [generateFallbackEvaluation]
  rw [if_neg (by push_neg; exact ⟨hne, by omega⟩), if_neg hc, List.append_assoc]
  congr 1
  congr 1
  set ov := sharedWordCount user_answer
    (((chunks.take 3).map (fun c => c.page_content ++ [' '])).flatten) with hov
  by_cases h10 : 10 < ov
  · rw [if_pos h10, if_pos h10]
  · by_cases h6 : 5 < ov
    · rw [if_neg h10, if_neg h10, if_pos h6, if_pos ⟨by omega, by omega⟩]
    · rw [if_neg h10, if_neg h10, if_neg h6, if_neg (by omega)]

/-- Witness for C8 (amended) at a concrete five-word answer and one chunk. -/
theorem claim_C8_witness :
    5 ≤ (trim c8ua).length
    ∧ generateFallbackEvaluation ("Q?".data) c8ua [c8doc]
        = ("Thank you for your ".data ++ natStr ((pyWords c8ua).length)
            ++ "-word response. ".data)
          ++ ((if 10 < sharedWordCount c8ua
                  ((([c8doc].take 3).map (fun c => c.page_content ++ [' '])).flatten) then
                "Your answer shows good engagement with the document content. ".data
               else if 6 ≤ sharedWordCount c8ua
                  ((([c8doc].take 3).map (fun c => c.page_content ++ [' '])).flatten)
                  ∧ sharedWordCount c8ua
                  ((([c8doc].take 3).map (fun c => c.page_content ++ [' '])).flatten) ≤ 10 then
                "Your answer has some connection to the document content. ".data
               else
                "Consider referencing more specific details from the document. ".data)
            ++ (if (pyWords c8ua).length < 20 then
                  "Try to provide more detailed explanations and examples from the document.".data
                else if 150 < (pyWords c8ua).length then comprehensiveMsg
                else "Good length for your response.".data)) :=
  ⟨by decide, claim_C8_fallback_evaluation ("Q?".data) c8ua [c8doc] (by decide) (by decide)⟩

theorem generateFallbackQuestions_three (chunks : List PChunk) :
    (generateFallbackQuestions chunks 3).length = 3 := by
  by_cases hc : chunks = []
  · subst hc
    decide
  · simp only [generateFallbackQuestions, if_neg hc]
    rw [List.length_take]
    split <;> split <;> simp [genericFallbackQuestions]

/-- C9: whenever the generative model is unavailable (initialization fails)
or every invocation of the retry loop raises, `generate_challenge_questions`
with `n = 3` returns exactly the 3 fallback questions for the chunk list —
for every chunk list, including a single-chunk one — and, being total, never
propagates an exception (the source catches the re-raised last failure in
its outermost handler). -/
theorem claim_C9_fallback_questions (llm : LLM) (chunks : List PChunk)
    (h : llm.init = false ∨ ∀ i < 3, llm.invoke i = none) :
    generateChallengeQuestions llm chunks 3
      = (generateFallbackQuestions chunks 3, if llm.init then 3 else 0)
    ∧ (generateChallengeQuestions llm chunks 3).1.length = 3 := by
  have hfb := generateFallbackQuestions_three chunks
  have key : generateChallengeQuestions llm chunks 3
      = (generateFallbackQuestions chunks 3, if llm.init then 3 else 0) := by
    by_cases hi : llm.init = true
    · rcases h with h | h
      · rw [h] at hi
        exact absurd hi (by simp)
      · have h0 := h 0 (by omega)
        have h1 := h 1 (by omega)
        have h2 := h 2 (by omega)
        simp [generateChallengeQuestions, hi, questionAttempts, h0, h1, h2]
    · have hi2 : llm.init = false := by simpa using hi
      simp [generateChallengeQuestions, hi2]
  refine ⟨key, ?_⟩
  rw [key]
  exact hfb

/-- Witness for C9 at the single-chunk document with the model unavailable. -/
theorem claim_C9_witness :
    generateChallengeQuestions llmUnavailable c9chunks 3
      = (generateFallbackQuestions c9chunks 3, 0)
    ∧ (generateChallengeQuestions llmUnavailable c9chunks 3).1.length = 3 := by
  have h := claim_C9_fallback_questions llmUnavailable c9chunks (Or.inl rfl)
  simpa [llmUnavailable] using h

/-- C10: for every successfully processed document, the `sections` list is
exactly the names of ALL segmented sections (chunking is total, so the
per-section exception handler never drops one), `stats.total_sections`
counts them, and the returned chunks are the per-section enumerations — so
a section all of whose chunks were discarded by the noise filter still
appears in `sections` while contributing zero entries to `chunks`. -/
theorem claim_C10_sections_complete (split : Str → Except Unit (List Str))
    (summary text : Str) (r : ProcResult)
    (h : processDocument split summary text = Except.ok r) :
    r.sections = (splitIntoSections text).map (fun p => p.1)
    ∧ r.total_sections = r.sections.length
    ∧ (∀ p ∈ splitIntoSections text, p.1 ∈ r.sections)
    ∧ r.chunks = (splitIntoSections text).flatMap (fun p =>
        (chunkSection split p.2).enum.map (fun ic => PChunk.mk p.1 (ic.1 + 1) ic.2)) := by
  simp only [processDocument] at h
  split at h
  · exact absurd h (by simp)
  · split at h
    · exact absurd h (by simp)
    · rw [Except.ok.injEq] at h
      subst h
      refine ⟨by simp [List.map_map], by simp, ?_, by simp [List.flatMap_map]⟩
      intro p hp
      simp only [List.map_map]
      exact List.mem_map_of_mem _ hp

/-- Witness for C10 on a document whose `Conclusion` section chunks to
nothing (its only line is under 31 characters): the section is still listed
while no chunk belongs to it. -/
theorem claim_C10_witness :
    ∃ r, processDocument idSplit ("summary text".data) c10text = Except.ok r
      ∧ r.sections = (splitIntoSections c10text).map (fun p => p.1)
      ∧ r.total_sections = r.sections.length
      ∧ ("Conclusion".data) ∈ r.sections
      ∧ (∀ ch ∈ r.chunks, ch.sec ≠ ("Conclusion".data)) := by
  obtain ⟨r, hr⟩ : ∃ r, processDocument idSplit ("summary text".data) c10text = Except.ok r :=
    ⟨_, rfl⟩
  have h := claim_C10_sections_complete idSplit ("summary text".data) c10text r hr
  refine ⟨r, hr, h.1, h.2.1, ?_, ?_⟩
  · rw [h.1]
    decide
  · rw [h.2.2.2]
    decide
